import Mathlib

/-!
# Verification of the saucery reduction engine

Shallow embedding of the saucery reduction subsystem (the `saucery/reduction`
package): the byte-range model (`ReferencePath`, `ReferencePathList`), the
logical analysis combinators, the `Conclusion` snapshot, the `Definition`
field-validation machinery and registry, and the comparison family.
Each definition is translated from the corresponding Python source; file and
line references are given in the doc comments.
-/

namespace Saucery

/-- File contents are modelled as a list of byte values. -/
abbrev Bytes := List Nat

/-- `ReferencePath` (saucery/reduction/reference/path.py, lines 18-65).

A `root` node models a `ReferencePath` constructed directly over a real file
(`args[0]` is not a `ReferencePath`, so `_ref is None`): `file` is the content
of the underlying real file, or `none` when the file cannot be opened/stat-ed
(`OSError`).  A `sl` node models a `ReferencePath` whose first argument is
another `ReferencePath` (as built by `ReferencePath.slice`), with `_ref` the
parent.  The stored `off`/`len` components are the `_offset`/`_length`
attributes, which `__new__` stores already clamped via `max(0, offset)` and
`max(0, length)`. -/
inductive RPath where
  | root (file : Option Bytes) (off : Nat) (len : Nat)
  | sl (ref : RPath) (off : Nat) (len : Nat)
deriving DecidableEq

/-- `ReferencePath.slice(offset, length=0)` (path.py line 64):
`ReferencePath(self, offset=offset, length=length)`; `__new__` clamps both to
non-negative (`Int.toNat` is Python `max(0, ·)`). -/
def RPath.slice (p : RPath) (offset : Int) (length : Int) : RPath :=
  .sl p offset.toNat length.toNat

/-- `ReferencePath.offset` (path.py lines 49-53): `self._ref.offset +
self._offset` when sliced, else `self._offset`. -/
def RPath.offset : RPath → Nat
  | .root _ o _ => o
  | .sl r o _ => r.offset + o

/-- `ReferencePath.length` (path.py lines 55-62): `maxlen = self._length or
sys.maxsize`; for a slice `max(min(self._ref.length - self._offset, maxlen), 0)`;
for a root path `max(min(self.stat().st_size - self._offset, maxlen), 0)`, with
`OSError` (unreadable file) giving 0.  Truncated natural subtraction plays the
role of the trailing `max(·, 0)`; the `_length == 0` branch is the unbounded
`sys.maxsize` case. -/
def RPath.length : RPath → Nat
  | .root file o l =>
      match file with
      | some c => if l = 0 then c.length - o else min (c.length - o) l
      | none => 0
  | .sl r o l => if l = 0 then r.length - o else min (r.length - o) l

/-- `ReferencePath._value` for a root path (path.py lines 132-138): open the
file (`None` on `OSError`), `f.seek(self.offset)`, then
`f.read(self._length or None)`; `read(None)` reads to end of file and seeking
past the end yields an empty read. -/
def RPath.rootValue (file : Option Bytes) (o l : Nat) : Option Bytes :=
  file.map (fun c => if l = 0 then c.drop o else (c.drop o).take l)

/-- `ReferencePath.value` (path.py lines 140-153): for a root path this is
`self._value`; for a slice it evaluates `self._ref.value[offset:end_offset]`
with `offset = self.offset - self._ref.offset` (which equals `self._offset`)
and `end_offset = offset + self.length`.  When `self._ref.value` is `None` the
subscript raises `TypeError` (`NoneType` is not subscriptable); raised
exceptions are modelled with `Except.error`. -/
def RPath.value : RPath → Except String (Option Bytes)
  | .root file o l => .ok (RPath.rootValue file o l)
  | .sl r o l =>
      match RPath.value r with
      | .error e => .error e
      | .ok none => .error "TypeError: NoneType object is not subscriptable"
      | .ok (some v) => .ok (some ((v.drop o).take (RPath.length (.sl r o l))))

/-- The real underlying (root) file of a `ReferencePath`: follow the `_ref`
chain to the path that was constructed over the real file. -/
def RPath.rootFile : RPath → Option Bytes
  | .root f _ _ => f
  | .sl r _ _ => r.rootFile

/-- Size of the real underlying (root) file, 0 when it is unreadable. -/
def RPath.rootSize (p : RPath) : Nat := (p.rootFile.map List.length).getD 0

/-- Iterated slicing: apply `ReferencePath.slice` once for each
`(offset, length)` pair, left to right. -/
def RPath.sliceChain (p : RPath) (steps : List (Int × Int)) : RPath :=
  steps.foldl (fun q s => q.slice s.1 s.2) p

/-- Evaluation of `[p.value for p in paths]`: each constituent value is
computed in list order, and a raised exception propagates. -/
def collectValues : List RPath → Except String (List (Option Bytes))
  | [] => .ok []
  | p :: rest => do
      let v ← p.value
      let vs ← collectValues rest
      return v :: vs

/-- `ReferencePathList.value` (path.py lines 209-222):
`values = [p.value for p in self._paths if p.value is not None]`;
`None` when `not values and self._paths`, else `b''.join(values)`. -/
def ReferencePathList.value (ps : List RPath) : Except String (Option Bytes) :=
  match collectValues ps with
  | .error e => .error e
  | .ok vs =>
      let values := vs.reduceOption
      if values.isEmpty && !ps.isEmpty then .ok none
      else .ok (some values.flatten)

/-! ## Supporting lemmas for the byte-range model -/

/-- The value of a `ReferencePath`, when available, has exactly `length` bytes. -/
theorem RPath.length_value (p : RPath) (v : Bytes) (hv : p.value = .ok (some v)) :
    v.length = p.length := by
  induction p generalizing v with
  | root file o l =>
      match file with
      | none => simp [RPath.value, RPath.rootValue] at hv
      | some c =>
          simp [RPath.value, RPath.rootValue] at hv
          subst hv
          by_cases h : l = 0
          · simp [RPath.length, h, List.length_drop]
          · simp [RPath.length, h, List.length_take, List.length_drop]
            omega
  | sl r o l ih =>
      rw [RPath.value] at hv
      match hr : r.value with
      | .error e => rw [hr] at hv; exact absurd hv (by simp)
      | .ok none => rw [hr] at hv; exact absurd hv (by simp)
      | .ok (some w) =>
          rw [hr] at hv
          simp only [Except.ok.injEq, Option.some.injEq] at hv
          subst hv
          have hw := ih w hr
          by_cases h : l = 0
          · simp [RPath.length, h, List.length_take, List.length_drop, hw]
          · simp [RPath.length, h, List.length_take, List.length_drop, hw]

/-- Taking at most `min (xs.length) m` elements is the same as taking `m`. -/
theorem take_min_length (xs : List α) (m : Nat) :
    xs.take (min xs.length m) = xs.take m := by
  rw [Nat.min_comm, ← List.take_take, List.take_of_length_le (Nat.le_refl _)]

/-- The slice length never exceeds the parent length minus the slice offset. -/
theorem RPath.length_sl_le (r : RPath) (o l : Nat) :
    RPath.length (.sl r o l) ≤ r.length - o := by
  rw [RPath.length]
  by_cases h : l = 0
  · simp [h]
  · simp [h]

/-- C2: a `ReferencePath` over an unreadable file has value `None` (the
`OSError` is suppressed), but computing the value of a *slice* of that path
evaluates `self._ref.value[offset:end_offset]` with `self._ref.value` equal to
`None`, which raises `TypeError` instead of collapsing to `None` as the claim
(and the docstring of `ReferencePath.value`, "On error, return None") states. -/
theorem slice_of_unreadable_value_raises :
    (RPath.root none 0 0).value = .ok none ∧
    ((RPath.root none 0 0).slice 0 1).value =
      .error "TypeError: NoneType object is not subscriptable" := by
  exact ⟨rfl, rfl⟩

/-- C3: for a `ReferencePathList` whose constituents all produce a value
without raising: if the list is non-empty and every constituent value is
`None`, the list value is `None`; an empty list has value `b''`; and if some
constituent value is not `None`, the value is the concatenation, in list
order, of exactly the non-`None` constituent values. -/
theorem referencePathList_value_spec (ps : List RPath) (vs : List (Option Bytes))
    (h : collectValues ps = .ok vs) :
    (ps ≠ [] → (∀ v ∈ vs, v = none) → ReferencePathList.value ps = .ok none) ∧
    (ps = [] → ReferencePathList.value ps = .ok (some [])) ∧
    ((∃ v ∈ vs, v ≠ none) →
      ReferencePathList.value ps = .ok (some vs.reduceOption.flatten)) := by
  refine ⟨?_, ?_, ?_⟩
  · intro hne hall
    have hred : vs.reduceOption = [] := by
      unfold List.reduceOption
      exact List.filterMap_eq_nil_iff.mpr (fun a ha => hall a ha)
    have hpe : ps.isEmpty = false := by
      cases ps with
      | nil => exact absurd rfl hne
      | cons q qs => rfl
    simp [ReferencePathList.value, h, hred, hpe]
  · intro hnil
    subst hnil
    have hvs : vs = [] := by
      have : (Except.ok [] : Except String (List (Option Bytes))) = .ok vs := h
      simpa using this.symm
    subst hvs
    simp [ReferencePathList.value, collectValues]
  · rintro ⟨v, hv, hvn⟩
    have hred : vs.reduceOption ≠ [] := by
      intro hcon
      unfold List.reduceOption at hcon
      rw [List.filterMap_eq_nil_iff] at hcon
      exact hvn (hcon v hv)
    have hie : vs.reduceOption.isEmpty = false := by
      cases hc : vs.reduceOption with
      | nil => exact absurd hc hred
      | cons a l => rfl
    simp [ReferencePathList.value, h, hie]

/-- C3 witness: a singleton list over an unreadable file. -/
theorem referencePathList_value_spec_witness :
    ReferencePathList.value [RPath.root none 0 0] = .ok none :=
  (referencePathList_value_spec [RPath.root none 0 0] [none] (by rfl)).1
    (by simp) (by simp)

/-- Slice offsets accumulate root-relatively: applying a chain of slices
yields a Path whose offset is the starting offset plus the sum of the clamped
slice offsets. -/
theorem RPath.sliceChain_offset (p : RPath) (steps : List (Int × Int)) :
    (p.sliceChain steps).offset = p.offset + (steps.map (fun s => s.1.toNat)).sum := by
  induction steps generalizing p with
  | nil => simp [RPath.sliceChain]
  | cons s rest ih =>
      have hstep : RPath.sliceChain p (s :: rest) =
          RPath.sliceChain (p.slice s.1 s.2) rest := rfl
      rw [hstep, ih (p.slice s.1 s.2)]
      simp [RPath.slice, RPath.offset, Nat.add_assoc]

/-- C4 counterexample: for the claim as stated ("for all k, L,
`p.slice(k, L).value == p.value[k:k+L]`"), take `L = 0` on a 2-byte file:
`ReferencePath.slice` treats `length=0` as "to the end of the file"
(`maxlen = self._length or sys.maxsize`), so `slice(0, 0).value` is the whole
value while `p.value[0:0+0]` is the empty byte string. -/
theorem slice_value_counterexample :
    (RPath.root (some [104, 105]) 0 0).value = .ok (some [104, 105]) ∧
    ¬ (((RPath.root (some [104, 105]) 0 0).slice 0 0).value =
        .ok (some ((([104, 105] : Bytes).drop 0).take 0))) := by
  refine ⟨rfl, ?_⟩
  intro hcon
  have h1 : ((RPath.root (some [104, 105]) 0 0).slice 0 0).value =
      .ok (some [104, 105]) := rfl
  rw [h1] at hcon
  simp at hcon

/-- C4 (amended): for every Path `p` whose value is available:
`p.slice(0, N).value == p.value` for `N = p.length`; for all `k ≥ 0` and
`L ≥ 1`, `p.slice(k, L).value == p.value[k:k+L]` byte-for-byte; and for a
slice at any nesting depth its offset is the offset of the root plus the sum
of the (non-negative-clamped) slice offsets along the chain (root-relative,
not parent-relative). -/
theorem slice_value_root_relative (p : RPath) (v : Bytes)
    (hv : p.value = .ok (some v)) :
    (p.slice 0 (p.length : Int)).value = p.value ∧
    (∀ k L : Nat, 1 ≤ L →
      (p.slice (k : Int) (L : Int)).value = .ok (some ((v.drop k).take L))) ∧
    (∀ steps : List (Int × Int),
      (p.sliceChain steps).offset = p.offset + (steps.map (fun s => s.1.toNat)).sum) := by
  have hlen := RPath.length_value p v hv
  refine ⟨?_, ?_, ?_⟩
  · show (RPath.sl p (Int.toNat 0) (Int.toNat p.length)).value = p.value
    rw [RPath.value, hv]
    simp only [Int.toNat_zero, Int.toNat_natCast, List.drop_zero]
    have hl : RPath.length (.sl p 0 p.length) = p.length := by
      rw [RPath.length]
      by_cases h : p.length = 0 <;> simp [h]
    rw [hl, ← hlen, List.take_length]
  · intro k L hL
    show (RPath.sl p (Int.toNat k) (Int.toNat L)).value = _
    rw [RPath.value, hv]
    simp only [Int.toNat_natCast]
    have hl : RPath.length (.sl p k L) = min ((v.drop k).length) L := by
      rw [RPath.length, if_neg (by omega), List.length_drop, hlen]
    rw [hl, take_min_length]
  · intro steps
    exact RPath.sliceChain_offset p steps

/-- C4 witness: a 2-byte root file, sliced with `k = 1`, `L = 1`. -/
theorem slice_value_root_relative_witness :
    ((RPath.root (some [104, 105]) 0 0).slice 1 1).value =
      .ok (some ((([104, 105] : Bytes).drop 1).take 1)) :=
  (slice_value_root_relative (RPath.root (some [104, 105]) 0 0) [104, 105]
    (by rfl)).2.1 1 1 (by decide)

/-- C8 counterexample: the claim "offset + length never exceeds the size of
the real underlying (root) file" fails when the (clamped) slice offset lies
beyond the end of the data: slicing a 1-byte file at offset 5 yields a Path
with `offset = 5` and `length = 0`, and `5 + 0 > 1`. -/
theorem offset_length_counterexample :
    ¬ (((RPath.root (some [97]) 0 0).slice 5 0).offset +
        ((RPath.root (some [97]) 0 0).slice 5 0).length ≤
        ((RPath.root (some [97]) 0 0).slice 5 0).rootSize) := by
  decide

/-- C8 (amended): for every Path, including every slice at any depth, the
range never extends past the end of the real underlying (root) file:
`offset + length ≤ max offset (root file size)`; equivalently `length` never
exceeds the bytes remaining past `offset`, though `offset` itself may lie
beyond the end of the file (with `length = 0`). -/
theorem offset_length_le_max (p : RPath) :
    p.offset + p.length ≤ max p.offset p.rootSize := by
  induction p with
  | root file o l =>
      match file with
      | none => simp [RPath.offset, RPath.length, RPath.rootSize, RPath.rootFile]
      | some c =>
          simp only [RPath.offset, RPath.rootSize, RPath.rootFile, Option.map_some,
            Option.getD_some, RPath.length]
          by_cases h : l = 0 <;> simp [h] <;> omega
  | sl r o l ih =>
      have hle := RPath.length_sl_le r o l
      have hroot : RPath.rootSize (.sl r o l) = r.rootSize := rfl
      simp only [RPath.offset, hroot]
      omega

/-! ## Logical analyses (saucery/reduction/analysis/analysis.py lines 537-597
and saucery/reduction/analysis/logical.py lines 9-77; the two snapshots define
`LogicalAnalysis._normal`, `AndAnalysis.is_normal` and `OrAnalysis.is_normal`
identically). -/

/-- `LogicalAnalysis._normal`: `None` when `self.analyses` is falsy (empty);
`normal = [a.normal for a in self.analyses]`, `None` when `None in normal`,
else `self.is_normal(normal)` (all entries are then actual booleans, modelled
by `reduceOption`, which keeps them in order). -/
def LogicalAnalysis.normalOf (is_normal : List Bool → Bool)
    (children : List (Option Bool)) : Option Bool :=
  if children.isEmpty then none
  else if none ∈ children then none
  else some (is_normal children.reduceOption)

/-- `AndAnalysis.is_normal(values)`: `all(values)`. -/
def AndAnalysis.is_normal (values : List Bool) : Bool := values.all id

/-- `OrAnalysis.is_normal(values)`: `any(values)`. -/
def OrAnalysis.is_normal (values : List Bool) : Bool := values.any id

/-- `AndAnalysis._normal`, as a function of the child analyses' `normal`s. -/
def AndAnalysis.normal (children : List (Option Bool)) : Option Bool :=
  LogicalAnalysis.normalOf AndAnalysis.is_normal children

/-- `OrAnalysis._normal`, as a function of the child analyses' `normal`s. -/
def OrAnalysis.normal (children : List (Option Bool)) : Option Bool :=
  LogicalAnalysis.normalOf OrAnalysis.is_normal children

/-- C1: for every `AndAnalysis` (and `OrAnalysis`) with a non-empty list of
child definitions: if any child's `normal` is `None` the aggregate `normal` is
`None`; otherwise `AndAnalysis.normal` is `True` iff every child's `normal` is
`True`, and `OrAnalysis.normal` is `True` iff at least one child's `normal` is
`True` (and neither aggregate is `None`). -/
theorem logical_and_or_normal (cs : List (Option Bool)) (hne : cs ≠ []) :
    (none ∈ cs → AndAnalysis.normal cs = none ∧ OrAnalysis.normal cs = none) ∧
    (none ∉ cs →
      ((AndAnalysis.normal cs = some true ↔ ∀ c ∈ cs, c = some true) ∧
       (OrAnalysis.normal cs = some true ↔ ∃ c ∈ cs, c = some true) ∧
       AndAnalysis.normal cs ≠ none ∧ OrAnalysis.normal cs ≠ none)) := by
  have hie : cs.isEmpty = false := by
    cases cs with
    | nil => exact absurd rfl hne
    | cons a l => rfl
  constructor
  · intro hmem
    constructor <;>
      simp [AndAnalysis.normal, OrAnalysis.normal, LogicalAnalysis.normalOf, hie, hmem]
  · intro hnm
    refine ⟨?_, ?_, ?_, ?_⟩
    · simp only [AndAnalysis.normal, LogicalAnalysis.normalOf, hie, Bool.false_eq_true,
        if_false, if_neg hnm, AndAnalysis.is_normal, Option.some.injEq]
      rw [List.all_eq_true]
      constructor
      · intro hall c hc
        match c with
        | none => exact absurd hc hnm
        | some b =>
            have : b = true := hall b (List.reduceOption_mem_iff.mpr hc)
            rw [this]
      · intro hall b hb
        have := hall (some b) (List.reduceOption_mem_iff.mp hb)
        simpa using this
    · simp only [OrAnalysis.normal, LogicalAnalysis.normalOf, hie, Bool.false_eq_true,
        if_false, if_neg hnm, OrAnalysis.is_normal, Option.some.injEq]
      rw [List.any_eq_true]
      constructor
      · rintro ⟨b, hb, hbt⟩
        exact ⟨some b, List.reduceOption_mem_iff.mp hb, by simpa using hbt⟩
      · rintro ⟨c, hc, hct⟩
        subst hct
        exact ⟨true, List.reduceOption_mem_iff.mpr hc, rfl⟩
    · simp [AndAnalysis.normal, LogicalAnalysis.normalOf, hie, hnm]
    · simp [OrAnalysis.normal, LogicalAnalysis.normalOf, hie, hnm]

/-- C1 witness: one unknown child makes both aggregates unknown. -/
theorem logical_and_or_normal_witness :
    AndAnalysis.normal [some true, none] = none ∧
    OrAnalysis.normal [some true, none] = none :=
  (logical_and_or_normal [some true, none] (by simp)).1 (by simp)

/-! ## Conclusion (saucery/reduction/analysis/conclusion.py) -/

/-- The attributes an `Analysis` object actually exposes that are relevant to
`Conclusion.data` (saucery/reduction/analysis/analysis.py): `name` (the `name`
field, possibly absent), `level`, `summary`, `description`, `results` (the
analysis results, `None` when no analysis could be performed), `duration` (a
timedelta, here its `total_seconds()` value) and `normal` (tri-state). -/
structure AnalysisObj where
  name? : Option String
  level : String
  summary : String
  description : String
  results : Option (List String)
  durationSeconds : Int
  normal : Option Bool
deriving DecidableEq

/-- A value appearing in a `Conclusion` mapping. -/
inductive ConcVal where
  | nil
  | bool (b : Bool)
  | str (s : String)
  | strs (xs : List String)
  | num (n : Int)
deriving DecidableEq

/-- `Conclusion.normal` (conclusion.py lines 43-45): `analysis.normal is True`. -/
def Conclusion.normal (a : AnalysisObj) : Bool := a.normal = some true

/-- `Conclusion.abnormal` (conclusion.py lines 47-49): `analysis.normal is False`. -/
def Conclusion.abnormal (a : AnalysisObj) : Bool := a.normal = some false

/-- `Conclusion.unknown` (conclusion.py lines 51-53): `analysis.normal is None`. -/
def Conclusion.unknown (a : AnalysisObj) : Bool := a.normal = none

/-- The attribute table of an `Analysis` object: the properties that
`Analysis` (analysis.py) defines among those `Conclusion.data` reads.  Note
the results property is named `results`; no `Analysis` class in the source
defines an attribute named `result`. -/
def AnalysisObj.attrs (a : AnalysisObj) : List (String × ConcVal) :=
  [("name", match a.name? with | some s => .str s | none => .nil),
   ("level", .str a.level),
   ("summary", .str a.summary),
   ("description", .str a.description),
   ("results", match a.results with | some xs => .strs xs | none => .nil),
   ("duration", .num a.durationSeconds),
   ("normal", match a.normal with | some b => .bool b | none => .nil)]

/-- Python attribute lookup on an `Analysis` object: `AttributeError` when the
attribute is not defined. -/
def AnalysisObj.getattr (a : AnalysisObj) (n : String) : Except String ConcVal :=
  match (a.attrs.find? (fun p => p.1 = n)) with
  | some p => .ok p.2
  | none => .error ("AttributeError: " ++ n)

/-- `Conclusion.data` (conclusion.py lines 10-28): builds the dict
`{name, level, summary, description, result, duration, normal, abnormal,
unknown}`; the values coming from the analysis are attribute accesses on
`self.analysis`, evaluated in the order they appear in the dict literal. -/
def Conclusion.data (a : AnalysisObj) : Except String (List (String × ConcVal)) := do
  let nameV ← a.getattr "name"
  let levelV ← a.getattr "level"
  let summaryV ← a.getattr "summary"
  let descriptionV ← a.getattr "description"
  let resultV ← a.getattr "result"
  let durationV ← a.getattr "duration"
  return [("name", nameV),
          ("level", levelV),
          ("summary", summaryV),
          ("description", descriptionV),
          ("result", resultV),
          ("duration", durationV),
          ("normal", .bool (Conclusion.normal a)),
          ("abnormal", .bool (Conclusion.abnormal a)),
          ("unknown", .bool (Conclusion.unknown a))]

/-- C6: materializing `Conclusion.data` never succeeds: the dict literal reads
`self.analysis.result`, but the `Analysis` classes define the property
`results`, not `result`, so the access raises `AttributeError` for every
well-formed `Analysis`. -/
theorem conclusion_data_attribute_error (a : AnalysisObj) :
    Conclusion.data a = .error ("AttributeError: " ++ "result") := by
  rfl

/-- C9: for every `Analysis`, exactly one of the `Conclusion` flags `normal`,
`abnormal`, `unknown` is `True`: `normal` iff the analysis's `normal` is
`True`, `abnormal` iff it is `False`, `unknown` iff it is `None`; the three
flags partition the tri-state outcome space. -/
theorem conclusion_tristate_partition (a : AnalysisObj) :
    ((Conclusion.normal a = true ↔ a.normal = some true) ∧
     (Conclusion.abnormal a = true ↔ a.normal = some false) ∧
     (Conclusion.unknown a = true ↔ a.normal = none)) ∧
    ((if Conclusion.normal a then 1 else 0) + (if Conclusion.abnormal a then 1 else 0)
       + (if Conclusion.unknown a then 1 else 0) = 1) := by
  rcases ha : a.normal with _ | b
  · simp [Conclusion.normal, Conclusion.abnormal, Conclusion.unknown, ha]
  · cases b <;>
      simp [Conclusion.normal, Conclusion.abnormal, Conclusion.unknown, ha]

/-! ## Definition field validation and registry
(saucery/reduction/definition.py and saucery/reduction/reductions.py) -/

/-- `DefinitionField` (definition.py lines 235-270), restricted to what field
validation consults: `default` (`None` means no default, i.e. the field is
required) and `conflicts`. -/
structure DField (α : Type) where
  default? : Option α
  conflicts : List String
deriving DecidableEq

/-- The static data of a concrete `Definition` subclass: its class name
(used to tag errors), its `TYPE()` tag (compared against the `type` field
value in `setup`), and its declared field map `cls.fields()`. -/
structure DefnClass (α : Type) where
  clsname : String
  typ : α
  fields : List (String × DField α)
deriving DecidableEq

/-- A `Definition`'s underlying dict (`UserDict.data`), as an association
list of field name to value. -/
structure PyDefn (α : Type) where
  entries : List (String × α)
deriving DecidableEq

/-- A configuration error raised through `Definition._raise` (definition.py
lines 157-160): `ERROR_CLASS(f"\x7bclsname\x7d(\x7bname\x7d): \x7bmsg\x7d")`. -/
structure ConfigError (α : Type) where
  clsname : String
  name : Option α
  msg : String
deriving DecidableEq

/-- The dict keys of a Definition. -/
def PyDefn.keys (d : PyDefn α) : List String := d.entries.map Prod.fst

/-- Raw dict lookup. -/
def PyDefn.lookup (d : PyDefn α) (k : String) : Option α :=
  (d.entries.find? (fun p => p.1 = k)).map Prod.snd

/-- `self.fields.get(f)`: the declared `DefinitionField` for a field name. -/
def DefnClass.fieldSpec? (c : DefnClass α) (f : String) : Option (DField α) :=
  (c.fields.find? (fun p => p.1 = f)).map Prod.snd

/-- `self.get(field)` on a Definition: the dict value if present, else the
declared field's default (through `__missing__`, definition.py lines 162-165),
else `None` (`Mapping.get` turns the `KeyError` for an undeclared field into
`None`). -/
def Definition.get (c : DefnClass α) (d : PyDefn α) (k : String) : Option α :=
  match d.lookup k with
  | some v => some v
  | none =>
      match c.fieldSpec? k with
      | some s => s.default?
      | none => none

/-- `Definition._raise(msg)`: a configuration error tagged with the defining
class name and `self.get('name')`. -/
def Definition.raiseErr (c : DefnClass α) (d : PyDefn α) (msg : String) :
    ConfigError α :=
  ⟨c.clsname, Definition.get c d "name", msg⟩

/-- `Definition.check_invalid_fields` (definition.py lines 183-186): raise
when some dict key is not a declared field (the Python code tests emptiness
of the set difference `keys - fields`, the same condition). -/
def Definition.checkInvalidFields (c : DefnClass α) (d : PyDefn α) :
    Except (ConfigError α) Unit :=
  if (PyDefn.keys d).all (fun k => (c.fieldSpec? k).isSome) then .ok ()
  else .error (Definition.raiseErr c d "invalid fields")

/-- `Definition.check_required_fields` (lines 188-192): required fields are
the declared fields whose default is `None`; raise when one is not a dict
key. -/
def Definition.checkRequiredFields (c : DefnClass α) (d : PyDefn α) :
    Except (ConfigError α) Unit :=
  if c.fields.all (fun p => p.2.default?.isSome || (PyDefn.keys d).contains p.1)
  then .ok ()
  else .error (Definition.raiseErr c d "required fields")

/-- `Definition.check_conflicting_fields` (lines 194-198): for each dict key,
raise when one of its declared conflicts is also a dict key.
(`self.fields.get(field)` cannot be `None` here because, in `setup`,
`check_invalid_fields` runs first; `getD []` keeps the function total on the
unreachable undeclared-key case.) -/
def Definition.checkConflictingFields (c : DefnClass α) (d : PyDefn α) :
    Except (ConfigError α) Unit :=
  if (PyDefn.keys d).all (fun f =>
      (((c.fieldSpec? f).map DField.conflicts).getD []).all
        (fun g => !(PyDefn.keys d).contains g))
  then .ok ()
  else .error (Definition.raiseErr c d "conflicting fields")

/-- `Definition.setup` (definition.py lines 167-181): type-tag check, then
`check_invalid_fields`, `check_required_fields`, `check_conflicting_fields`
in that order, then the per-field convert/check loop.  The loop
(`DefinitionField.convert`/`check`, lines 276-316) is abstracted as the
`convertStep` parameter; any `InvalidDefinitionError` it reports is re-raised
through `_raise` (line 181), i.e. tagged the same way as the checks. -/
def Definition.setup [DecidableEq α] (c : DefnClass α) (d : PyDefn α)
    (convertStep : PyDefn α → Except String (PyDefn α)) :
    Except (ConfigError α) (PyDefn α) :=
  if Definition.get c d "type" ≠ some c.typ then
    .error (Definition.raiseErr c d "type mismatch")
  else match Definition.checkInvalidFields c d with
  | .error e => .error e
  | .ok _ =>
    match Definition.checkRequiredFields c d with
    | .error e => .error e
    | .ok _ =>
      match Definition.checkConflictingFields c d with
      | .error e => .error e
      | .ok _ =>
        match convertStep d with
        | .error msg => .error (Definition.raiseErr c d msg)
        | .ok d2 => .ok d2

/-- Which flat sub-registry a Definition lands in (reductions.py lines
67-72); every concrete Definition is a `Reference` or an `Analysis`. -/
inductive DefnKind where
  | reference
  | analysis
deriving DecidableEq

/-- Errors raised while constructing and registering a Definition. -/
inductive InitError (α : Type) where
  | valueError
  | duplicate (name : Option α)
  | config (e : ConfigError α)
deriving DecidableEq

/-- `Reductions` (reductions.py lines 21-31): `self.data` is a `ChainMap` of
the references dict over the analyses dict; both are modelled as
insertion-ordered association lists keyed by Definition name (which is
`self.get('name')`, hence possibly `None`). -/
structure Reductions (α : Type) where
  references : List (Option α × PyDefn α)
  analyses : List (Option α × PyDefn α)
deriving DecidableEq

/-- `key in self` on the `ChainMap`: membership in either dict. -/
def Reductions.containsKey [DecidableEq α] (r : Reductions α) (k : Option α) :
    Bool :=
  (r.references ++ r.analyses).any (fun p => p.1 = k)

/-- `Reductions.__setitem__` (reductions.py lines 60-73): a falsy value
raises `ValueError`; an existing key raises the duplicate
`InvalidDefinitionError`; otherwise the value is stored in the references or
analyses dict according to its class. -/
def Reductions.setItem [DecidableEq α] (r : Reductions α) (k : Option α)
    (kind : DefnKind) (v : PyDefn α) : Except (InitError α) (Reductions α) :=
  if v.entries.isEmpty then .error .valueError
  else if r.containsKey k then .error (.duplicate k)
  else match kind with
    | .reference => .ok { r with references := r.references ++ [(k, v)] }
    | .analysis => .ok { r with analyses := r.analyses ++ [(k, v)] }

/-- `Definition.__init__` for a named definition (definition.py lines
113-129): store the dict, register `reductions[self.get('name')] = self`,
then run `setup()`.  Registration precedes validation and is not rolled back
when `setup()` raises.  Returns the construction outcome together with the
registry state afterwards.  (The `anonymous=True` branch only substitutes a
random UUID for the name before registration and is not modelled.) -/
def Definition.init [DecidableEq α] (c : DefnClass α) (kind : DefnKind)
    (d : PyDefn α) (convertStep : PyDefn α → Except String (PyDefn α))
    (reg : Reductions α) : Except (InitError α) (PyDefn α) × Reductions α :=
  match reg.setItem (Definition.get c d "name") kind d with
  | .error e => (.error e, reg)
  | .ok reg2 =>
      match Definition.setup c d convertStep with
      | .error ce => (.error (.config ce), reg2)
      | .ok d2 => (.ok d2, reg2)

/-! ## Theorems about Definition validation and registration -/

theorem checkInvalidFields_shape [DecidableEq α] (c : DefnClass α) (d : PyDefn α)
    (e : ConfigError α) (h : Definition.checkInvalidFields c d = .error e) :
    e = Definition.raiseErr c d "invalid fields" := by
  unfold Definition.checkInvalidFields at h
  split at h
  · exact absurd h (by simp)
  · simpa using h.symm

theorem checkRequiredFields_shape [DecidableEq α] (c : DefnClass α) (d : PyDefn α)
    (e : ConfigError α) (h : Definition.checkRequiredFields c d = .error e) :
    e = Definition.raiseErr c d "required fields" := by
  unfold Definition.checkRequiredFields at h
  split at h
  · exact absurd h (by simp)
  · simpa using h.symm

theorem checkConflictingFields_shape [DecidableEq α] (c : DefnClass α) (d : PyDefn α)
    (e : ConfigError α) (h : Definition.checkConflictingFields c d = .error e) :
    e = Definition.raiseErr c d "conflicting fields" := by
  unfold Definition.checkConflictingFields at h
  split at h
  · exact absurd h (by simp)
  · simpa using h.symm

/-- Every error `Definition.setup` produces is tagged through `_raise`. -/
theorem setup_error_shape [DecidableEq α] (c : DefnClass α) (d : PyDefn α)
    (convertStep : PyDefn α → Except String (PyDefn α)) (e : ConfigError α)
    (h : Definition.setup c d convertStep = .error e) :
    ∃ msg, e = Definition.raiseErr c d msg := by
  unfold Definition.setup at h
  split at h
  · exact ⟨"type mismatch", by simpa using h.symm⟩
  · split at h
    · rename_i e1 he1
      exact ⟨"invalid fields",
        by rw [← checkInvalidFields_shape c d e1 he1]; simpa using h.symm⟩
    · split at h
      · rename_i e1 he1
        exact ⟨"required fields",
          by rw [← checkRequiredFields_shape c d e1 he1]; simpa using h.symm⟩
      · split at h
        · rename_i e1 he1
          exact ⟨"conflicting fields",
            by rw [← checkConflictingFields_shape c d e1 he1]; simpa using h.symm⟩
        · split at h
          · rename_i msg hmsg
            exact ⟨msg, by simpa using h.symm⟩
          · exact absurd h (by simp)

/-- If `setup` succeeds, every dict key is a declared field. -/
theorem setup_ok_no_invalid [DecidableEq α] (c : DefnClass α) (d : PyDefn α)
    (convertStep : PyDefn α → Except String (PyDefn α)) (d2 : PyDefn α)
    (h : Definition.setup c d convertStep = .ok d2) :
    ∀ k ∈ PyDefn.keys d, (c.fieldSpec? k).isSome := by
  intro k hk
  unfold Definition.setup at h
  split at h
  · exact absurd h (by simp)
  · rcases hinv : Definition.checkInvalidFields c d with e | u
    · rw [hinv] at h; exact absurd h (by simp)
    · unfold Definition.checkInvalidFields at hinv
      split at hinv
      · rename_i hcond
        rw [List.all_eq_true] at hcond
        exact hcond k hk
      · exact absurd hinv (by simp)

/-- If `setup` succeeds, every required (no-default) declared field is a dict
key. -/
theorem setup_ok_no_missing [DecidableEq α] (c : DefnClass α) (d : PyDefn α)
    (convertStep : PyDefn α → Except String (PyDefn α)) (d2 : PyDefn α)
    (h : Definition.setup c d convertStep = .ok d2) :
    ∀ p ∈ c.fields, p.2.default? = none → p.1 ∈ PyDefn.keys d := by
  intro p hp hdef
  unfold Definition.setup at h
  split at h
  · exact absurd h (by simp)
  · split at h
    · exact absurd h (by simp)
    · rcases hreq : Definition.checkRequiredFields c d with e | u
      · rw [hreq] at h; exact absurd h (by simp)
      · unfold Definition.checkRequiredFields at hreq
        split at hreq
        · rename_i hcond
          rw [List.all_eq_true] at hcond
          have hthis := hcond p hp
          rw [hdef] at hthis
          simp only [Option.isSome_none, Bool.false_or] at hthis
          exact List.mem_of_elem_eq_true hthis
        · exact absurd hreq (by simp)

/-- If `setup` succeeds, no dict key has a declared conflict that is also a
dict key. -/
theorem setup_ok_no_conflicts [DecidableEq α] (c : DefnClass α) (d : PyDefn α)
    (convertStep : PyDefn α → Except String (PyDefn α)) (d2 : PyDefn α)
    (h : Definition.setup c d convertStep = .ok d2) :
    ∀ f ∈ PyDefn.keys d, ∀ sf, c.fieldSpec? f = some sf →
      ∀ g ∈ sf.conflicts, g ∉ PyDefn.keys d := by
  intro f hf sf hsf g hg hgk
  unfold Definition.setup at h
  split at h
  · exact absurd h (by simp)
  · split at h
    · exact absurd h (by simp)
    · split at h
      · exact absurd h (by simp)
      · rcases hcf : Definition.checkConflictingFields c d with e | u
        · rw [hcf] at h; exact absurd h (by simp)
        · unfold Definition.checkConflictingFields at hcf
          split at hcf
          · rename_i hcond
            rw [List.all_eq_true] at hcond
            have h1 := hcond f hf
            rw [List.all_eq_true] at h1
            have h2 := h1 g (by rw [hsf]; simpa using hg)
            have h3 : List.contains (PyDefn.keys d) g = true :=
              List.elem_eq_true_of_mem hgk
            rw [h3] at h2
            simp at h2
          · exact absurd hcf (by simp)

/-- C7: constructing a `Definition` with an unknown field (one not in its
declared field map), or without a required field (one declared with no
default), or with two fields declared mutually conflicting both present,
always raises a configuration error during `setup()`, tagged with the
defining class name and the Definition's name. -/
theorem setup_rejects_bad_fields [DecidableEq α] (c : DefnClass α) (d : PyDefn α)
    (convertStep : PyDefn α → Except String (PyDefn α))
    (h : (∃ k ∈ PyDefn.keys d, c.fieldSpec? k = none) ∨
         (∃ f sf, (f, sf) ∈ c.fields ∧ sf.default? = none ∧ f ∉ PyDefn.keys d) ∨
         (∃ f g sf, c.fieldSpec? f = some sf ∧ g ∈ sf.conflicts ∧
            f ∈ PyDefn.keys d ∧ g ∈ PyDefn.keys d)) :
    ∃ msg, Definition.setup c d convertStep =
      .error ⟨c.clsname, Definition.get c d "name", msg⟩ := by
  rcases hs : Definition.setup c d convertStep with e | d2
  · obtain ⟨msg, hmsg⟩ := setup_error_shape c d convertStep e hs
    refine ⟨msg, ?_⟩
    rw [hmsg]
    rfl
  · exfalso
    rcases h with ⟨k, hk, hnone⟩ | ⟨f, sf, hf, hdef, hnk⟩ | ⟨f, g, sf, hsf, hg, hfk, hgk⟩
    · have := setup_ok_no_invalid c d convertStep d2 hs k hk
      rw [hnone] at this
      exact absurd this (by simp)
    · exact hnk (setup_ok_no_missing c d convertStep d2 hs (f, sf) hf hdef)
    · exact setup_ok_no_conflicts c d convertStep d2 hs f hfk sf hsf g hg hgk

/-- C7 witness: a definition carrying an undeclared field `bogus`. -/
theorem setup_rejects_bad_fields_witness :
    ∃ msg, Definition.setup (α := String)
        ⟨"FileReference", "file",
          [("name", ⟨none, []⟩), ("type", ⟨none, []⟩), ("source", ⟨none, []⟩)]⟩
        ⟨[("name", "x"), ("type", "file"), ("source", "y"), ("bogus", "z")]⟩
        (fun d0 => .ok d0) =
      .error ⟨"FileReference", some "x", msg⟩ := by
  have h := setup_rejects_bad_fields (α := String)
    ⟨"FileReference", "file",
      [("name", ⟨none, []⟩), ("type", ⟨none, []⟩), ("source", ⟨none, []⟩)]⟩
    ⟨[("name", "x"), ("type", "file"), ("source", "y"), ("bogus", "z")]⟩
    (fun d0 => .ok d0)
    (Or.inl ⟨"bogus", by decide, by decide⟩)
  simpa [Definition.get, PyDefn.lookup] using h

/-- C10: constructing a `Definition` registers it into the owning
`Reductions` registry under its name before `setup()` validation runs;
consequently, if `setup()` raises a configuration error, construction fails
but the definition remains registered under its name (no rollback), and a
later definition reusing that name is rejected as a duplicate. -/
theorem registration_before_setup [DecidableEq α]
    (c c2 : DefnClass α) (kind kind2 : DefnKind) (d d2 : PyDefn α)
    (conv conv2 : PyDefn α → Except String (PyDefn α))
    (reg : Reductions α) (n : α) (e : ConfigError α)
    (hname : Definition.get c d "name" = some n)
    (hne : d.entries ≠ [])
    (hnew : reg.containsKey (some n) = false)
    (hfail : Definition.setup c d conv = .error e)
    (hname2 : Definition.get c2 d2 "name" = some n)
    (hne2 : d2.entries ≠ []) :
    (Definition.init c kind d conv reg).1 = .error (.config e) ∧
    (Definition.init c kind d conv reg).2.containsKey (some n) = true ∧
    (Definition.init c2 kind2 d2 conv2 (Definition.init c kind d conv reg).2).1 =
      .error (.duplicate (some n)) := by
  have hie : d.entries.isEmpty = false := by
    cases hc : d.entries with
    | nil => exact absurd hc hne
    | cons a l => rfl
  have hie2 : d2.entries.isEmpty = false := by
    cases hc : d2.entries with
    | nil => exact absurd hc hne2
    | cons a l => rfl
  cases kind with
  | reference =>
      have hset : reg.setItem (Definition.get c d "name") .reference d =
          .ok { reg with references := reg.references ++ [(some n, d)] } := by
        rw [hname]
        simp [Reductions.setItem, hie, hnew]
      have hinit : Definition.init c .reference d conv reg =
          (.error (.config e),
           { reg with references := reg.references ++ [(some n, d)] }) := by
        unfold Definition.init
        rw [hset, hfail]
      rw [hinit]
      refine ⟨rfl, by simp [Reductions.containsKey], ?_⟩
      unfold Definition.init
      have hdup : ({ reg with references := reg.references ++ [(some n, d)] } :
            Reductions α).setItem (Definition.get c2 d2 "name") kind2 d2 =
          .error (.duplicate (some n)) := by
        rw [hname2]
        simp [Reductions.setItem, hie2, Reductions.containsKey]
      rw [hdup]
  | analysis =>
      have hset : reg.setItem (Definition.get c d "name") .analysis d =
          .ok { reg with analyses := reg.analyses ++ [(some n, d)] } := by
        rw [hname]
        simp [Reductions.setItem, hie, hnew]
      have hinit : Definition.init c .analysis d conv reg =
          (.error (.config e),
           { reg with analyses := reg.analyses ++ [(some n, d)] }) := by
        unfold Definition.init
        rw [hset, hfail]
      rw [hinit]
      refine ⟨rfl, by simp [Reductions.containsKey], ?_⟩
      unfold Definition.init
      have hdup : ({ reg with analyses := reg.analyses ++ [(some n, d)] } :
            Reductions α).setItem (Definition.get c2 d2 "name") kind2 d2 =
          .error (.duplicate (some n)) := by
        rw [hname2]
        simp [Reductions.setItem, hie2, Reductions.containsKey]
      rw [hdup]

/-- C10 witness: a definition with an undeclared field fails validation but
stays registered, and re-registering the name `x` is rejected. -/
theorem registration_before_setup_witness :
    (Definition.init (α := String)
        ⟨"FileReference", "file", [("name", ⟨none, []⟩), ("type", ⟨none, []⟩)]⟩
        .reference
        ⟨[("name", "x"), ("type", "file"), ("bogus", "z")]⟩
        (fun d0 => .ok d0) ⟨[], []⟩).1 =
      .error (.config ⟨"FileReference", some "x", "invalid fields"⟩) ∧
    (Definition.init (α := String)
        ⟨"FileReference", "file", [("name", ⟨none, []⟩), ("type", ⟨none, []⟩)]⟩
        .reference
        ⟨[("name", "x"), ("type", "file"), ("bogus", "z")]⟩
        (fun d0 => .ok d0) ⟨[], []⟩).2.containsKey (some "x") = true ∧
    (Definition.init (α := String)
        ⟨"FileReference", "file", [("name", ⟨none, []⟩), ("type", ⟨none, []⟩)]⟩
        .analysis
        ⟨[("name", "x"), ("type", "file")]⟩
        (fun d0 => .ok d0)
        (Definition.init (α := String)
          ⟨"FileReference", "file", [("name", ⟨none, []⟩), ("type", ⟨none, []⟩)]⟩
          .reference
          ⟨[("name", "x"), ("type", "file"), ("bogus", "z")]⟩
          (fun d0 => .ok d0) ⟨[], []⟩).2).1 =
      .error (.duplicate (some "x")) := by
  exact registration_before_setup
    ⟨"FileReference", "file", [("name", ⟨none, []⟩), ("type", ⟨none, []⟩)]⟩
    ⟨"FileReference", "file", [("name", ⟨none, []⟩), ("type", ⟨none, []⟩)]⟩
    .reference .analysis
    ⟨[("name", "x"), ("type", "file"), ("bogus", "z")]⟩
    ⟨[("name", "x"), ("type", "file")]⟩
    (fun d0 => .ok d0) (fun d0 => .ok d0)
    ⟨[], []⟩ "x" ⟨"FileReference", some "x", "invalid fields"⟩
    rfl (by simp) rfl rfl rfl (by simp)

/-! ## Comparison family.

The module `saucery/reduction/analysis/comparison.py` (`StringEqComparison`,
`NumberLtComparison`, `NumberLeComparison`, `NumberGeComparison`,
`NumberGtComparison`, `DictComparison`) is imported by
`analysis/compare.py` and `analysis/analysis.py` but is absent from the
source tree; only its callers are present.  The definitions below are
therefore modelled from the specification (sections 4.5 and 8). -/

/-- Comparison operators (`eq/lt/le/ge/gt`). -/
inductive CompOp where
  | eq
  | lt
  | le
  | ge
  | gt
deriving DecidableEq

/-- Evaluate a comparison operator on two integers. -/
def CompOp.evalInt : CompOp → Int → Int → Bool
  | .eq, a, b => a = b
  | .lt, a, b => a < b
  | .le, a, b => a ≤ b
  | .ge, a, b => a ≥ b
  | .gt, a, b => a > b

/-- Modelled from the spec: collapse each whitespace run into a single
space (the `ignore_whitespace` normalization of `StringComparison`). -/
def collapseWhitespace : List Char → List Char
  | [] => []
  | ch :: rest =>
      if ch.isWhitespace then
        Char.ofNat 32 :: collapseWhitespace (rest.dropWhile Char.isWhitespace)
      else ch :: collapseWhitespace rest
termination_by cs => cs.length
decreasing_by
  · simp only [List.length_cons]
    have := (List.dropWhile_sublist (l := rest) Char.isWhitespace).length_le
    omega
  · simp

/-- Modelled from the spec: `StringComparison` normalization — optional
strip, optional whitespace-collapse — applied before comparing. -/
def normalizeString (strip ignoreWhitespace : Bool) (s : String) : String :=
  let s1 := if strip then s.trim else s
  if ignoreWhitespace then String.mk (collapseWhitespace s1.toList) else s1

/-- Modelled from the spec: the kind of a scalar comparison built by the
`Comparison` factory — string equality with its normalization flags, or a
numeric operator comparison. -/
inductive ScalarComparisonKind where
  | stringEq (strip ignoreWhitespace : Bool)
  | number (op : CompOp)
deriving DecidableEq

/-- Modelled from the spec: `compare()` of a scalar comparison built by the
`Comparison(analysis, a, b)` factory.  Whenever either operand is `None` the
factory returns the "unknown" comparator, whose `compare()` is `None`.
Otherwise `StringComparison` normalizes both sides and tests equality, and
`NumberComparison` coerces both sides to integer (coercion failure gives
"unknown") and applies its operator. -/
def Comparison.compare (kind : ScalarComparisonKind) :
    Option String → Option String → Option Bool
  | none, _ => none
  | _, none => none
  | some x, some y =>
      match kind with
      | .stringEq strip iw =>
          some (normalizeString strip iw x == normalizeString strip iw y)
      | .number op =>
          match x.toInt?, y.toInt? with
          | some m, some n => some (op.evalInt m n)
          | _, _ => none

/-- Modelled from the spec: the keyword parameters of `DictComparison`. -/
structure DictComparisonParams where
  fields : List String
  fieldsFromA : Bool
  fieldsFromB : Bool
  ignoreFields : List String
  ignoreMissing : Bool
deriving DecidableEq

/-- Lookup in a dict operand. -/
def dictLookup (d : List (String × String)) (k : String) : Option String :=
  (d.find? (fun p => p.1 = k)).map Prod.snd

/-- Modelled from the spec: the comparison field set of `DictComparison`:
`(fields ∪ a.keys() if fields_from_a ∪ b.keys() if fields_from_b) −
ignore_fields` (the set is deduplicated; its order does not affect the
outcome). -/
def DictComparison.fieldSet (ps : DictComparisonParams)
    (a b : List (String × String)) : List String :=
  ((ps.fields ++ (if ps.fieldsFromA then a.map Prod.fst else [])
      ++ (if ps.fieldsFromB then b.map Prod.fst else [])).dedup).filter
    (fun f => f ∉ ps.ignoreFields)

/-- Modelled from the spec: `DictComparison.compare()`.  `None` when either
operand is `None` (the factory's "unknown" comparator).  Otherwise, for each
field in the field set build a scalar comparison of `a[field]` vs `b[field]`;
`failed_fields` are those whose `compare()` is `False` and `missing_fields`
those whose `compare()` is `None`; the overall result is `False` if any field
failed, or if any field is missing and `ignore_missing` is false, else
`True`. -/
def DictComparison.compare (scalar : ScalarComparisonKind)
    (ps : DictComparisonParams) :
    Option (List (String × String)) → Option (List (String × String)) →
      Option Bool
  | some da, some db =>
      let results := (DictComparison.fieldSet ps da db).map
        (fun f => Comparison.compare scalar (dictLookup da f) (dictLookup db f))
      let failed := results.any (fun r => r = some false)
      let missing := results.any (fun r => r = none)
      if failed || (missing && !ps.ignoreMissing) then some false else some true
  | _, _ => none

/-- C5: for every Comparison built by the `Comparison` factory (scalar or
dict), if either operand is `None` then `compare()` returns `None` — never
`True` or `False` — and neither construction nor `compare()` raises (the
model is a total function). -/
theorem comparison_none_operand :
    (∀ (kind : ScalarComparisonKind) (a b : Option String),
      a = none ∨ b = none → Comparison.compare kind a b = none) ∧
    (∀ (scalar : ScalarComparisonKind) (ps : DictComparisonParams)
      (a b : Option (List (String × String))),
      a = none ∨ b = none → DictComparison.compare scalar ps a b = none) := by
  constructor
  · intro kind a b h
    rcases h with h | h
    · subst h
      cases b <;> rfl
    · subst h
      cases a <;> rfl
  · intro scalar ps a b h
    rcases h with h | h
    · subst h
      cases b <;> rfl
    · subst h
      cases a <;> rfl

/-- C5 witness: a numeric less-than comparison with an unavailable left
operand, and a dict comparison with an unavailable right operand. -/
theorem comparison_none_operand_witness :
    Comparison.compare (.number .lt) none (some "5") = none ∧
    DictComparison.compare (.stringEq true true)
      ⟨[], true, true, [], false⟩ (some [("a", "1")]) none = none :=
  ⟨comparison_none_operand.1 (.number .lt) none (some "5") (Or.inl rfl),
   comparison_none_operand.2 (.stringEq true true)
     ⟨[], true, true, [], false⟩ (some [("a", "1")]) none (Or.inr rfl)⟩

end Saucery
